import Mathlib

/-!
# Verification of the GPU transcription job orchestrator

A shallow embedding, in Lean 4, of the core of the repository
(`server/gpu_manager.py`, `server/multi_model_transcriber.py`,
`server/websocket_server.py`), together with theorems settling the
frozen specification claims about it.

Conventions of the embedding:
* Python `float` quantities that are only compared and combined by
  exact arithmetic (utilizations, memory sizes, timestamps) are
  modelled as rationals (`ℚ`); Python `int` as `ℤ` or `ℕ` where the
  source guarantees non-negativity.
* Python dictionaries keyed by job id are modelled as association
  lists with insert-or-replace semantics (insertion order preserved,
  as in CPython).
* Fallible telemetry probes are modelled as `Option`-valued inputs:
  `none` is the probe raising/failing, `some v` the value it returns.
* Measurement of file text uses `List Char`.
-/

namespace GpuManager

/-- Embeds the `GPUStats` dataclass of `server/gpu_manager.py`. -/
structure GPUStats where
  gpu_id : ℕ
  name : String
  utilization : ℚ
  memory_used : ℚ
  memory_total : ℚ
  memory_free : ℚ
  temperature : ℚ
  power_draw : ℚ
  driver_version : String
deriving DecidableEq, Repr

/-- Embeds the `SystemStats` dataclass of `server/gpu_manager.py`. -/
structure SystemStats where
  gpus : List GPUStats
  cpu_usage : ℚ
  ram_usage : ℚ
  ram_total : ℚ
  active_jobs : ℕ
  queue_length : ℕ
  tensorrt_available : Bool
  cuda_version : String
deriving DecidableEq, Repr

/-- The fold of `GPUMonitor.get_best_gpu`'s loop: `b`/`l` are the current
`best_gpu` and `lowest_utilization`; a device replaces them only when its
utilization is strictly lower (`gpu.utilization < lowest_utilization`). -/
def bestFold (b : ℕ) (l : ℚ) : List GPUStats → ℕ
  | [] => b
  | g :: rest =>
      if g.utilization < l then bestFold g.gpu_id g.utilization rest
      else bestFold b l rest

/-- Embeds `GPUMonitor.get_best_gpu` (gpu_manager.py lines 216-229).
`current_stats` is the monitor's latest snapshot (`None` when no snapshot
exists).  The Python loop starts from `best_gpu = None`,
`lowest_utilization = inf`, so on a non-empty list the head always wins the
first comparison; the fold below starts from the head, which is the same
function. -/
def get_best_gpu (current_stats : Option SystemStats) : Option ℕ :=
  match current_stats with
  | none => none
  | some st =>
    match st.gpus with
    | [] => none
    | g :: rest => some (bestFold g.gpu_id g.utilization rest)

/-- Embeds the result dictionary of `GPUResourceManager.get_optimal_settings`;
`gpu_id`/`memory_available` are absent (`none`) in the degraded branches. -/
structure OptimalSettings where
  use_gpu : Bool
  use_tensorrt : Bool
  batch_size : ℤ
  precision : String
  gpu_id : Option ℕ := none
  memory_available : Option ℚ := none
deriving DecidableEq, Repr

/-- Python `int()` applied to a rational: truncation toward zero. -/
def pyInt (q : ℚ) : ℤ :=
  if 0 ≤ q then ⌊q⌋ else ⌈q⌉

/-- The degraded settings returned by `get_optimal_settings` when no
snapshot, no device, or no matching best device exists. -/
def defaultSettings : OptimalSettings :=
  { use_gpu := false
    use_tensorrt := false
    batch_size := 1
    precision := "fp32" }

/-- Embeds `GPUResourceManager.get_optimal_settings` (gpu_manager.py lines
422-457).  `use_tensorrt` needs `stats.tensorrt_available` and
`memory_free > 4000` (strict); `precision` is `"fp16"` when
`memory_free > 6000` (strict); `batch_size = min(4, max(1, int(free/2000)))`. -/
def get_optimal_settings (current_stats : Option SystemStats) : OptimalSettings :=
  match current_stats with
  | none => defaultSettings
  | some st =>
    match st.gpus with
    | [] => defaultSettings
    | _ :: _ =>
      match get_best_gpu (some st) with
      | none => defaultSettings
      | some best =>
        match st.gpus.find? (fun g => g.gpu_id = best) with
        | none => defaultSettings
        | some gpu_stats =>
          { use_gpu := true
            use_tensorrt := st.tensorrt_available && decide (gpu_stats.memory_free > 4000)
            batch_size := min 4 (max 1 (pyInt (gpu_stats.memory_free / 2000)))
            precision := if gpu_stats.memory_free > 6000 then "fp16" else "fp32"
            gpu_id := some best
            memory_available := some gpu_stats.memory_free }

/-- Embeds `GPUMonitor._get_gpu_stats_nvidia_smi` (gpu_manager.py lines
137-178) at probe granularity: `none` models the command raising or
returning a non-zero exit code (both yield `[]`); `some parsed` models a
successful run whose lines parsed to `parsed`. -/
def nvidia_smi_stats (probe : Option (List GPUStats)) : List GPUStats :=
  match probe with
  | none => []
  | some parsed => parsed

/-- Embeds `GPUMonitor._collect_stats` (gpu_manager.py lines 92-135) as a
total function of the outcomes of its probes: `gputilProbe` is the primary
telemetry source (`none` = `GPUtil.getGPUs` raised), `smiProbe` the
`nvidia-smi` fallback, `cudaProbe` the `nvcc` version query (`none` =
failure, yielding `"Unknown"`), `trtProbe` the result of the tensorrt
availability check.  The job counters are initialised to 0, "will be updated by
job manager". -/
def collect_stats (gputilProbe : Option (List GPUStats))
    (smiProbe : Option (List GPUStats))
    (cpu ram ramTotal : ℚ) (cudaProbe : Option String) (trtProbe : Bool) :
    SystemStats :=
  let gpu_stats :=
    match gputilProbe with
    | some l => l
    | none => nvidia_smi_stats smiProbe
  { gpus := gpu_stats
    cpu_usage := cpu
    ram_usage := ram
    ram_total := ramTotal
    active_jobs := 0
    queue_length := 0
    tensorrt_available := trtProbe
    cuda_version := cudaProbe.getD "Unknown" }

/-- Embeds the `TranscriptionJob` dataclass of `server/gpu_manager.py`
(lines 232-246).  `created_at` is the submission timestamp (`time.time()`),
modelled as an exact rational; `priority`: lower = higher priority. -/
structure TranscriptionJob where
  job_id : ℕ
  video_path : String
  priority : ℤ
  gpu_id : Option ℕ := none
  created_at : ℚ
deriving DecidableEq, Repr

/-- `TranscriptionJob.__lt__`: lexicographic on `(priority, created_at)`. -/
def jobLt (a b : TranscriptionJob) : Prop :=
  a.priority < b.priority ∨ (a.priority = b.priority ∧ a.created_at < b.created_at)

instance : DecidablePred fun p : TranscriptionJob × TranscriptionJob => jobLt p.1 p.2 :=
  fun _ => by unfold jobLt; infer_instance

instance (a b : TranscriptionJob) : Decidable (jobLt a b) := by
  unfold jobLt; infer_instance

/-- One pass of extracting the least job of a `PriorityQueue` (a binary
heap ordered by `TranscriptionJob.__lt__`): the least element under the
lexicographic order, the earliest-queued one on full ties. -/
def queueMin (g : TranscriptionJob) : List TranscriptionJob → TranscriptionJob
  | [] => g
  | j :: rest => if jobLt j g then queueMin j rest else queueMin g rest

/-- `PriorityQueue.get_nowait` on the queue's contents: removes and
returns a least element (by `__lt__`); `none` on an empty queue. -/
def popMin : List TranscriptionJob → Option (TranscriptionJob × List TranscriptionJob)
  | [] => none
  | j :: rest =>
    let m := queueMin j rest
    some (m, (j :: rest).erase m)

/-- Insert-or-replace on a job dictionary (`self.active_jobs[job.job_id] = job`):
CPython dicts keep the position of an existing key and append new keys. -/
def dictInsert (k : ℕ) (v : TranscriptionJob) (m : List (ℕ × TranscriptionJob)) :
    List (ℕ × TranscriptionJob) :=
  if m.any (fun p => p.1 = k) then
    m.map (fun p => if p.1 = k then (k, v) else p)
  else
    m ++ [(k, v)]

/-- The mutable state of `GPUJobManager`: the priority queue's contents,
the `active_jobs` dictionary (insertion-ordered association list) and the
`completed_jobs` list. -/
structure JMState where
  jobQueue : List TranscriptionJob
  activeJobs : List (ℕ × TranscriptionJob)
  completedJobs : List ℕ
deriving DecidableEq, Repr

/-- The initial `GPUJobManager` state (`__init__`, lines 252-259). -/
def initJM : JMState :=
  { jobQueue := [], activeJobs := [], completedJobs := [] }

/-- Embeds `GPUJobManager.add_job` (lines 278-286): unconditionally put
the job on the queue. -/
def add_job (j : TranscriptionJob) (s : JMState) : JMState :=
  { s with jobQueue := s.jobQueue ++ [j] }

/-- Embeds `GPUJobManager._start_job` (lines 323-336): assign the
monitor's best GPU when the job has none (`best` is the value of
`gpu_monitor.get_best_gpu()` at this tick), then record the job in
`active_jobs`. -/
def start_job (best : Option ℕ) (j : TranscriptionJob) (s : JMState) : JMState :=
  let j' := if j.gpu_id = none then { j with gpu_id := best } else j
  { s with activeJobs := dictInsert j'.job_id j' s.activeJobs }

/-- Embeds `GPUJobManager._check_completed_jobs` (lines 338-353): every
active job whose age `now - created_at` exceeds 60 seconds is moved to
`completed_jobs` — completion is simulated from elapsed wall-clock time,
with no signal from any pipeline. -/
def check_completed_jobs (now : ℚ) (s : JMState) : JMState :=
  let completedIds :=
    (s.activeJobs.filter (fun p => 60 < now - p.2.created_at)).map (fun p => p.1)
  { s with
    activeJobs := s.activeJobs.filter (fun p => ¬ 60 < now - p.2.created_at)
    completedJobs := s.completedJobs ++ completedIds }

/-- One iteration of the `GPUJobManager._process_jobs` loop (lines
297-321) for a manager with bound `maxConcurrent`: admit the head of the
queue only when `len(active_jobs) < max_concurrent_jobs` and the queue is
non-empty, then run the completion check.  `now` is the wall clock at this
tick and `best` the monitor's current best GPU. -/
def process_tick (maxConcurrent : ℕ) (now : ℚ) (best : Option ℕ) (s : JMState) :
    JMState :=
  let s1 :=
    if s.activeJobs.length < maxConcurrent ∧ s.jobQueue ≠ [] then
      match popMin s.jobQueue with
      | some (j, rest) => start_job best j { s with jobQueue := rest }
      | none => s
    else s
  check_completed_jobs now s1

/-- Embeds `GPUJobManager.cancel_job` (lines 355-364): an active job is
deleted from `active_jobs` and `True` is returned; otherwise nothing
changes and `False` is returned — removing a queued job is not
implemented. -/
def cancel_job (job_id : ℕ) (s : JMState) : JMState × Bool :=
  if s.activeJobs.any (fun p => p.1 = job_id) then
    ({ s with activeJobs := s.activeJobs.filter (fun p => p.1 ≠ job_id) }, true)
  else
    (s, false)

/-- The element the `get_best_gpu` loop settles on: the earliest element
of `g :: gs` whose utilization is strictly smaller than everything kept
before it. -/
def minFirst (g : GPUStats) : List GPUStats → GPUStats
  | [] => g
  | h :: t => if h.utilization < g.utilization then minFirst h t else minFirst g t

/-- The spec-side predicate of the tie-break analysis: `x` has minimal
utilization among the devices of `l`. -/
def leAll (l : List GPUStats) (x : GPUStats) : Bool :=
  l.all fun y => decide (x.utilization ≤ y.utilization)

/-- A snapshot whose two devices are tied at utilization 30 but listed
with ids 5 then 2. -/
def tieSnapshot : SystemStats :=
  { gpus :=
      [{ gpu_id := 5, name := "gpu-a", utilization := 30, memory_used := 0
         memory_total := 8192, memory_free := 8192, temperature := 40
         power_draw := 0, driver_version := "d" },
       { gpu_id := 2, name := "gpu-b", utilization := 30, memory_used := 0
         memory_total := 8192, memory_free := 8192, temperature := 40
         power_draw := 0, driver_version := "d" }]
    cpu_usage := 0, ram_usage := 0, ram_total := 0, active_jobs := 0
    queue_length := 0, tensorrt_available := true, cuda_version := "12.1" }

/-- A snapshot with one device at exactly 4000MB free and the TensorRT
flag available. -/
def boundary4000 : SystemStats :=
  { gpus :=
      [{ gpu_id := 0, name := "gpu", utilization := 50, memory_used := 4192
         memory_total := 8192, memory_free := 4000, temperature := 40
         power_draw := 0, driver_version := "d" }]
    cpu_usage := 0, ram_usage := 0, ram_total := 0, active_jobs := 0
    queue_length := 0, tensorrt_available := true, cuda_version := "12.1" }

/-- A snapshot with one device at exactly 6000MB free. -/
def boundary6000 : SystemStats :=
  { gpus :=
      [{ gpu_id := 0, name := "gpu", utilization := 50, memory_used := 2192
         memory_total := 8192, memory_free := 6000, temperature := 40
         power_draw := 0, driver_version := "d" }]
    cpu_usage := 0, ram_usage := 0, ram_total := 0, active_jobs := 0
    queue_length := 0, tensorrt_available := true, cuda_version := "12.1" }

/-- The states a `GPUJobManager` with bound `maxConcurrent` can reach from
its initial state under any interleaving of submissions, scheduler ticks
and cancellations. -/
inductive Reachable (maxConcurrent : ℕ) : JMState → Prop
  | init : Reachable maxConcurrent initJM
  | add (j : TranscriptionJob) {s : JMState} :
      Reachable maxConcurrent s → Reachable maxConcurrent (add_job j s)
  | tick (now : ℚ) (best : Option ℕ) {s : JMState} :
      Reachable maxConcurrent s →
      Reachable maxConcurrent (process_tick maxConcurrent now best s)
  | cancel (job_id : ℕ) {s : JMState} :
      Reachable maxConcurrent s → Reachable maxConcurrent (cancel_job job_id s).1

end GpuManager

namespace Transcriber

/-- Embeds the `TranscriptionSegment` dataclass of
`server/multi_model_transcriber.py`; `stop` embeds the Python field `end`
(a reserved word in Lean). -/
structure TranscriptionSegment where
  start : ℚ
  stop : ℚ
  text : String
  confidence : ℚ := 0
deriving DecidableEq, Repr

/-- Embeds the `TranscriptionResult` dataclass. -/
structure TranscriptionResult where
  segments : List TranscriptionSegment
  full_text : String
  model_used : String
  processing_time : ℚ
  gpu_used : Bool
  tensorrt_used : Bool
  chinese_processed : Bool := false
deriving DecidableEq, Repr

/-- Embeds the fields of `TranscriptionConfig` that the orchestrator
reads.  After `__post_init__`, `chinese_settings` is a dict; Python
truth-tests it at line 391, so only its truthiness matters:
`chinese_settings_truthy` is `false` exactly when a caller passed an empty
dict. -/
structure TranscriptionConfig where
  model_name : String := "whisper-large-v3"
  language : String := "zh"
  use_gpu : Bool := true
  chinese_settings_truthy : Bool := true
deriving DecidableEq, Repr

/-- A raw segment dict of the external Whisper model's output
(`result["segments"]`): `start`, `end` (here `stop`), `text`,
`avg_logprob`. -/
structure RawSegment where
  start : ℚ
  stop : ℚ
  text : String
  avg_logprob : ℚ := 0
deriving DecidableEq, Repr

/-- The external Whisper model's output dict: segment list and full text. -/
structure WhisperOutput where
  segments : List RawSegment := []
  text : String := ""
deriving DecidableEq, Repr

/-- The collaborators and probe outcomes `MultiModelTranscriber` works
against: the GPU detection result (`gpu_info["available"]`,
`gpu_info["memory_free"]` in MB), whether `torch.cuda.is_available()`,
the external Whisper inference output, the optional
`ChineseProcessor.process_text` collaborator, and the measured elapsed
wall time used for `processing_time`. -/
structure PipelineEnv where
  gpu_available : Bool
  memory_free : ℕ
  torch_cuda_available : Bool := true
  whisper_output : WhisperOutput := {}
  chinese_processor : Option (String → String) := none
  elapsed : ℚ := 0

/-- The `model_requirements` table of
`MultiModelTranscriber.check_model_compatibility` (lines 336-341), read
with `.get(model_name, 0)`. -/
def model_requirements (model_name : String) : ℕ :=
  if model_name = "whisper-large-v3" then 4096
  else if model_name = "whisper-medium" then 2048
  else if model_name = "whisper-small" then 1024
  else if model_name = "fireredasr-aed" then 3072
  else 0

/-- The compatibility dict returned by `check_model_compatibility`. -/
structure Compatibility where
  compatible : Bool
  reason : String
  memory_sufficient : Bool
  gpu_supported : Bool
deriving DecidableEq, Repr

/-- Embeds `MultiModelTranscriber.check_model_compatibility` (lines
327-357): compatible exactly when a GPU is available and
`memory_free >= required` (boundary equality passes). -/
def check_model_compatibility (gpu_available : Bool) (memory_free : ℕ)
    (model_name : String) : Compatibility :=
  let required := model_requirements model_name
  if gpu_available then
    if memory_free ≥ required then
      { compatible := true, reason := "模型兼容"
        memory_sufficient := true, gpu_supported := true }
    else
      { compatible := false
        reason := "显存不足，需要" ++ toString required ++ "MB，可用"
          ++ toString memory_free ++ "MB"
        memory_sufficient := false, gpu_supported := true }
  else
    { compatible := false, reason := "未检测到可用GPU"
      memory_sufficient := false, gpu_supported := false }

/-- The backend families `MultiModelTranscriber.create_transcriber`
dispatches to. -/
inductive Backend where
  | whisper
  | fireredasr
deriving DecidableEq, Repr

/-- Python `model_name.startswith(pat)`, expressed on the character
lists of the two strings. -/
def startswith (model_name pat : String) : Bool :=
  pat.data.isPrefixOf model_name.data

/-- Embeds `MultiModelTranscriber.create_transcriber` (lines 359-366):
dispatch on the model name's family, `none` modelling the
`ValueError` raised for an unsupported model. -/
def create_transcriber (model_name : String) : Option Backend :=
  if startswith model_name "whisper" then some .whisper
  else if startswith model_name "fireredasr" then some .fireredasr
  else none

/-- The errors `transcribe_audio` can raise: the `RuntimeError` for an
incompatible model (line 379) and the `ValueError` for an unsupported
model name (line 366). -/
inductive TranscribeError where
  | incompatible (reason : String)
  | unsupportedModel (model_name : String)
deriving DecidableEq, Repr

/-- A call `progress_callback(percent, stage)`. -/
abbrev ProgressCall := ℕ × String

/-- Embeds `WhisperTranscriber.transcribe` (lines 169-217) as the pair
(result, delivered progress calls).  The external
`self.model.transcribe(...)` output is `env.whisper_output`; segment
texts are stripped and `avg_logprob` becomes the confidence. -/
def whisper_transcribe (env : PipelineEnv) (cfg : TranscriptionConfig) :
    TranscriptionResult × List ProgressCall :=
  let device_cuda := cfg.use_gpu && env.torch_cuda_available
  let segments := env.whisper_output.segments.map fun r =>
    { start := r.start, stop := r.stop, text := r.text.trim
      confidence := r.avg_logprob : TranscriptionSegment }
  ({ segments := segments
     full_text := env.whisper_output.text
     model_used := cfg.model_name
     processing_time := env.elapsed
     gpu_used := device_cuda
     tensorrt_used := false },
   [(10, "开始转录..."), (80, "转录完成，处理结果...")])

/-- Embeds `FiredASRTranscriber.transcribe` (lines 238-276): the
placeholder implementation returns one fixed segment and reports 10%
then 100%. -/
def fireredasr_transcribe (env : PipelineEnv) (cfg : TranscriptionConfig) :
    TranscriptionResult × List ProgressCall :=
  ({ segments := [{ start := 0, stop := 5, text := "FiredASR转录结果示例"
                    confidence := 95 / 100 }]
     full_text := "FiredASR转录结果示例"
     model_used := cfg.model_name
     processing_time := env.elapsed
     gpu_used := true
     tensorrt_used := false },
   [(10, "FiredASR转录中..."), (100, "FiredASR转录完成")])

/-- The condition guarding Chinese post-processing in `transcribe_audio`
(line 391): language is `"zh"`, the processor collaborator is present,
and `chinese_settings` is truthy. -/
def zh_post_applies (env : PipelineEnv) (cfg : TranscriptionConfig) : Bool :=
  cfg.language = "zh" && env.chinese_processor.isSome && cfg.chinese_settings_truthy

/-- Embeds `MultiModelTranscriber.transcribe_audio` (lines 368-412) as the
pair (outcome, delivered progress calls): compatibility gate, backend
dispatch, backend run, optional Chinese post-processing of every segment
text and of the full text, final 100% report. -/
def transcribe_audio (env : PipelineEnv) (cfg : TranscriptionConfig) :
    Except TranscribeError TranscriptionResult × List ProgressCall :=
  let compat := check_model_compatibility env.gpu_available env.memory_free cfg.model_name
  if compat.compatible then
    match create_transcriber cfg.model_name with
    | none => (.error (.unsupportedModel cfg.model_name), [])
    | some backend =>
      let head : List ProgressCall := [(5, "使用模型: " ++ cfg.model_name)]
      let run :=
        match backend with
        | .whisper => whisper_transcribe env cfg
        | .fireredasr => fireredasr_transcribe env cfg
      let result := run.1
      let afterPost :=
        if zh_post_applies env cfg then
          match env.chinese_processor with
          | some proc =>
            ({ result with
                segments := result.segments.map fun seg => { seg with text := proc seg.text }
                full_text := proc result.full_text
                chinese_processed := true },
             [(90, "中文文本后处理...")])
          | none => (result, [])
        else (result, [])
      (.ok afterPost.1, head ++ run.2 ++ afterPost.2 ++ [(100, "转录完成")])
  else
    (.error (.incompatible compat.reason), [])

/-- A concrete environment: GPU with 8192MB free, torch CUDA available,
Chinese processor collaborator present (the identity rewriter). -/
def zhPipelineEnv : PipelineEnv :=
  { gpu_available := true
    memory_free := 8192
    chinese_processor := some (fun t => t) }

/-- A job configured for the specialized-language backend with Chinese
post-processing applicable (defaults: language `"zh"`, settings truthy). -/
def firedZhCfg : TranscriptionConfig :=
  { model_name := "fireredasr-aed" }

/-- A job configured for the whisper backend with Chinese post-processing
applicable. -/
def whisperZhCfg : TranscriptionConfig :=
  { model_name := "whisper-large-v3" }

end Transcriber

namespace Subtitles

/-- Decimal digit characters, as Python's string formatting emits them. -/
def digitChar : ℕ → Char
  | 0 => '0' | 1 => '1' | 2 => '2' | 3 => '3' | 4 => '4'
  | 5 => '5' | 6 => '6' | 7 => '7' | 8 => '8' | _ => '9'

/-- Digit-accumulating worker for the decimal rendering; `fuel` only
bounds the recursion depth (any `fuel > n` gives the same result). -/
def toDigitsAux : ℕ → ℕ → List Char → List Char
  | 0, _, acc => acc
  | fuel + 1, n, acc =>
      if n < 10 then digitChar n :: acc
      else toDigitsAux fuel (n / 10) (digitChar (n % 10) :: acc)

/-- The decimal rendering of a natural number (most significant digit
first), as Python's `f"{n:d}"` produces it. -/
def toDigits (n : ℕ) : List Char := toDigitsAux (n + 1) n []

/-- Numeric value of a digit character. -/
def digitVal (c : Char) : ℕ := c.toNat - 48

/-- Value of a decimal digit string (leading zeros allowed). -/
def fromDigits (cs : List Char) : ℕ :=
  cs.foldl (fun a c => 10 * a + digitVal c) 0

/-- Python `f"{n:02d}"`: pad to width 2 with leading zeros. -/
def pad2 (n : ℕ) : List Char :=
  if n < 10 then '0' :: toDigits n else toDigits n

/-- Python `f"{n:03d}"`: pad to width 3 with leading zeros. -/
def pad3 (n : ℕ) : List Char :=
  if n < 10 then '0' :: '0' :: toDigits n
  else if n < 100 then '0' :: toDigits n
  else toDigits n

/-- The common arithmetic of `_format_srt_time` / `_format_vtt_time`
(multi_model_transcriber.py lines 468-484), on a time given as an exact
whole number of milliseconds `ms` (the claim's "exactly representable"
segment times, i.e. times representable in the renderings' millisecond
precision).  With `seconds = ms / 1000` exact, Python's
`int(seconds // 3600)`, `int((seconds % 3600) // 60)`, `int(seconds % 60)`
and `int((seconds - int(seconds)) * 1000)` are exactly the integer
divisions below.  `sep` separates seconds from milliseconds. -/
def format_time (sep : Char) (ms : ℕ) : List Char :=
  pad2 (ms / 3600000) ++ ':' ::
    (pad2 (ms % 3600000 / 60000) ++ ':' ::
      (pad2 (ms % 60000 / 1000) ++ sep :: pad3 (ms % 1000)))

/-- Embeds `MultiModelTranscriber._format_srt_time` (lines 468-475):
`HH:MM:SS,mmm`, hours unbounded (no wrap at 24). -/
def format_srt_time (ms : ℕ) : List Char := format_time ',' ms

/-- Embeds `MultiModelTranscriber._format_vtt_time` (lines 477-484):
`HH:MM:SS.mmm`. -/
def format_vtt_time (ms : ℕ) : List Char := format_time '.' ms

/-- A segment as the exporters consume it, restricted to the claim's
exactly-representable times: start/end (`stopMs`) in whole milliseconds.
The text is kept as its character list. -/
structure SubtitleSegment where
  startMs : ℕ
  stopMs : ℕ
  text : List Char
deriving DecidableEq, Repr

/-- The characters `" --> "` written between the two timestamps. -/
def arrowSep : List Char := [' ', '-', '-', '>', ' ']

/-- The text `MultiModelTranscriber._export_srt` (lines 428-441) writes
for the segments numbered from `i`: per segment, the cue number line, the
timestamp line, the text line and a blank line. -/
def export_srt_from (i : ℕ) : List SubtitleSegment → List Char
  | [] => []
  | s :: rest =>
      toDigits i ++ '\n' ::
        (format_srt_time s.startMs ++ arrowSep ++
          (format_srt_time s.stopMs ++ '\n' ::
            (s.text ++ '\n' :: '\n' :: export_srt_from (i + 1) rest)))

/-- The full SRT file contents written by `_export_srt` (cue numbers start
at 1, from `enumerate(result.segments, 1)`). -/
def export_srt (segs : List SubtitleSegment) : List Char :=
  export_srt_from 1 segs

/-- The cue blocks written by `MultiModelTranscriber._export_vtt` (lines
443-457): timestamp line, text line, blank line — no cue numbers. -/
def export_vtt_blocks : List SubtitleSegment → List Char
  | [] => []
  | s :: rest =>
      format_vtt_time s.startMs ++ arrowSep ++
        (format_vtt_time s.stopMs ++ '\n' ::
          (s.text ++ '\n' :: '\n' :: export_vtt_blocks rest))

/-- The fixed `WEBVTT` header line plus blank line. -/
def vttHeader : List Char := ['W', 'E', 'B', 'V', 'T', 'T', '\n', '\n']

/-- The full VTT file contents written by `_export_vtt`. -/
def export_vtt (segs : List SubtitleSegment) : List Char :=
  vttHeader ++ export_vtt_blocks segs

/-- Greedily read one decimal number (at least one digit). -/
def parseNat (cs : List Char) : Option (ℕ × List Char) :=
  let ds := cs.takeWhile Char.isDigit
  if ds.isEmpty then none
  else some (fromDigits ds, cs.dropWhile Char.isDigit)

/-- Consume one expected character. -/
def expectChar (c : Char) : List Char → Option (List Char)
  | [] => none
  | x :: rest => if x = c then some rest else none

/-- Consume an expected character sequence. -/
def expectChars : List Char → List Char → Option (List Char)
  | [], cs => some cs
  | e :: es, cs => expectChar e cs >>= expectChars es

/-- Read a `HH:MM:SS(sep)mmm` timestamp back to milliseconds — the
re-parsing direction of the claim's round trip. -/
def parse_time (sep : Char) (cs : List Char) : Option (ℕ × List Char) := do
  let (h, r1) ← parseNat cs
  let r2 ← expectChar ':' r1
  let (m, r3) ← parseNat r2
  let r4 ← expectChar ':' r3
  let (s, r5) ← parseNat r4
  let r6 ← expectChar sep r5
  let (mm, r7) ← parseNat r6
  some (h * 3600000 + m * 60000 + s * 1000 + mm, r7)

/-- Read one SRT cue block — number line, timestamp line, one text line,
blank line — returning its `(start, end, text)` tuple and the remaining
input. -/
def parse_srt_block (cs : List Char) :
    Option ((ℕ × ℕ × List Char) × List Char) := do
  let (_, r1) ← parseNat cs
  let r2 ← expectChar '\n' r1
  let (a, r3) ← parse_time ',' r2
  let r4 ← expectChars arrowSep r3
  let (b, r5) ← parse_time ',' r4
  let r6 ← expectChar '\n' r5
  let text := r6.takeWhile (fun c => c != '\n')
  let r7 := r6.dropWhile (fun c => c != '\n')
  let r8 ← expectChar '\n' r7
  let r9 ← expectChar '\n' r8
  some ((a, b, text), r9)

/-- Read the SRT cue blocks back as `(start, end, text)` tuples.  `fuel`
bounds the recursion (each block consumes at least one character). -/
def parse_srt_blocks (fuel : ℕ) (cs : List Char) :
    Option (List (ℕ × ℕ × List Char)) :=
  if cs.isEmpty then some []
  else
    match fuel with
    | 0 => none
    | f + 1 => do
      let (tup, r) ← parse_srt_block cs
      let rest ← parse_srt_blocks f r
      some (tup :: rest)

/-- Parse an SRT rendering back to its `(start, end, text)` tuples. -/
def parse_srt (cs : List Char) : Option (List (ℕ × ℕ × List Char)) :=
  parse_srt_blocks cs.length cs

/-- Read one VTT cue block — timestamp line, one text line, blank line. -/
def parse_vtt_block (cs : List Char) :
    Option ((ℕ × ℕ × List Char) × List Char) := do
  let (a, r1) ← parse_time '.' cs
  let r2 ← expectChars arrowSep r1
  let (b, r3) ← parse_time '.' r2
  let r4 ← expectChar '\n' r3
  let text := r4.takeWhile (fun c => c != '\n')
  let r5 := r4.dropWhile (fun c => c != '\n')
  let r6 ← expectChar '\n' r5
  let r7 ← expectChar '\n' r6
  some ((a, b, text), r7)

/-- Read the VTT cue blocks back as `(start, end, text)` tuples. -/
def parse_vtt_blocks (fuel : ℕ) (cs : List Char) :
    Option (List (ℕ × ℕ × List Char)) :=
  if cs.isEmpty then some []
  else
    match fuel with
    | 0 => none
    | f + 1 => do
      let (tup, r) ← parse_vtt_block cs
      let rest ← parse_vtt_blocks f r
      some (tup :: rest)

/-- Parse a VTT rendering (header plus blocks) back to its
`(start, end, text)` tuples. -/
def parse_vtt (cs : List Char) : Option (List (ℕ × ℕ × List Char)) :=
  match expectChars vttHeader cs with
  | none => none
  | some r => parse_vtt_blocks r.length r

end Subtitles

namespace WsServer

/-- Embeds the per-job dict held in
`TranscriptionProgressTracker.job_progress` (websocket_server.py lines
56-67): keys absent until first written are `Option`s.  Segment dicts and
result dicts are opaque payloads, modelled as strings. -/
structure JobProgress where
  job_id : ℕ
  filename : String
  status : String
  progress : ℤ
  stage : String
  duration : Option ℚ
  started_at : ℚ
  segments : List String
  gpu_utilization : Option ℚ := none
  completed_at : Option ℚ := none
  result : Option String := none
  error : Option String := none
  failed_at : Option ℚ := none
deriving DecidableEq, Repr

/-- The broadcasts handed to
`websocket_server.broadcast_to_job_subscribers` by the tracker, one
constructor per message `type`. -/
inductive Broadcast where
  | job_started (job_id : ℕ) (snapshot : JobProgress)
  | progress_update (job_id : ℕ) (progress : ℤ) (stage : Option String)
      (gpu_utilization : Option ℚ)
  | new_segment (job_id : ℕ) (segment : String)
  | job_completed (job_id : ℕ) (snapshot : JobProgress)
  | job_failed (job_id : ℕ) (error : String)
deriving DecidableEq, Repr

/-- The mutable state of `TranscriptionProgressTracker`: the
`job_progress` dict (insertion-ordered association list) and the
`active_transcriptions` set. -/
structure TrackerState where
  job_progress : List (ℕ × JobProgress)
  active_transcriptions : List ℕ
deriving DecidableEq, Repr

/-- The tracker's initial state (`__init__`, lines 51-54). -/
def initTracker : TrackerState :=
  { job_progress := [], active_transcriptions := [] }

/-- Insert-or-replace on the `job_progress` dict. -/
def progInsert (k : ℕ) (v : JobProgress) (m : List (ℕ × JobProgress)) :
    List (ℕ × JobProgress) :=
  if m.any (fun p => p.1 = k) then
    m.map (fun p => if p.1 = k then (k, v) else p)
  else
    m ++ [(k, v)]

/-- Update the entry at key `k` in place (Python
`self.job_progress[job_id][...] = ...`). -/
def progModify (k : ℕ) (f : JobProgress → JobProgress)
    (m : List (ℕ × JobProgress)) : List (ℕ × JobProgress) :=
  m.map (fun p => if p.1 = k then (p.1, f p.2) else p)

/-- Whether `job_id in self.job_progress`. -/
def hasJob (s : TrackerState) (job_id : ℕ) : Bool :=
  s.job_progress.any (fun p => p.1 = job_id)

/-- Embeds `TranscriptionProgressTracker.start_job` (lines 56-77): create
the entry, add to the active set (Python set-add: no duplicate), and
broadcast `job_started`.  `now` is `time.time()`. -/
def start_job (job_id : ℕ) (filename : String) (duration : Option ℚ)
    (now : ℚ) (s : TrackerState) : TrackerState × List Broadcast :=
  let entry : JobProgress :=
    { job_id := job_id, filename := filename, status := "starting"
      progress := 0, stage := "Initializing...", duration := duration
      started_at := now, segments := [] }
  ({ job_progress := progInsert job_id entry s.job_progress
     active_transcriptions :=
       if s.active_transcriptions.contains job_id then s.active_transcriptions
       else s.active_transcriptions ++ [job_id] },
   [.job_started job_id entry])

/-- Embeds `TranscriptionProgressTracker.update_progress` (lines 79-105):
a guard clause returns immediately when the job id is unknown; otherwise
the entry is updated (`stage` only when truthy, `gpu_utilization` only
when not `None`) and a `progress_update` is broadcast. -/
def update_progress (job_id : ℕ) (progress : ℤ) (stage : Option String)
    (gpu_utilization : Option ℚ) (s : TrackerState) :
    TrackerState × List Broadcast :=
  if hasJob s job_id then
    let upd := fun jp =>
      let jp1 := { jp with progress := progress, status := "processing" }
      let jp2 :=
        match stage with
        | some st => if st.isEmpty then jp1 else { jp1 with stage := st }
        | none => jp1
      match gpu_utilization with
      | some g => { jp2 with gpu_utilization := some g }
      | none => jp2
    ({ s with job_progress := progModify job_id upd s.job_progress },
     [.progress_update job_id progress stage gpu_utilization])
  else (s, [])

/-- Embeds `TranscriptionProgressTracker.add_segment` (lines 107-124). -/
def add_segment (job_id : ℕ) (segment : String) (s : TrackerState) :
    TrackerState × List Broadcast :=
  if hasJob s job_id then
    ({ s with job_progress := (progModify job_id
          (fun jp => { jp with segments := jp.segments ++ [segment] })
          s.job_progress) },
     [.new_segment job_id segment])
  else (s, [])

/-- Embeds `TranscriptionProgressTracker.complete_job` (lines 126-147):
guard clause on unknown id; otherwise status `"completed"`, progress 100,
completion timestamp, optional result payload (stored only when truthy),
removal from the active set, and a `job_completed` broadcast carrying the
updated entry. -/
def complete_job (job_id : ℕ) (result : Option String) (now : ℚ)
    (s : TrackerState) : TrackerState × List Broadcast :=
  if hasJob s job_id then
    let upd := fun jp =>
      let jp1 := { jp with status := "completed", progress := 100
                           completed_at := some now }
      match result with
      | some r => { jp1 with result := some r }
      | none => jp1
    let prog := progModify job_id upd s.job_progress
    let snapshot := (prog.find? (fun p => p.1 = job_id)).map (fun p => p.2)
    ({ job_progress := prog
       active_transcriptions := s.active_transcriptions.filter (fun j => j ≠ job_id) },
     match snapshot with
     | some jp => [.job_completed job_id jp]
     | none => [])
  else (s, [])

/-- Embeds `TranscriptionProgressTracker.fail_job` (lines 149-170): guard
clause on unknown id; otherwise status `"failed"`, error message, failure
timestamp, removal from the active set, and a `job_failed` broadcast. -/
def fail_job (job_id : ℕ) (error : String) (now : ℚ) (s : TrackerState) :
    TrackerState × List Broadcast :=
  if hasJob s job_id then
    ({ job_progress := (progModify job_id
          (fun jp => { jp with status := "failed", error := some error
                               failed_at := some now })
          s.job_progress)
       active_transcriptions := s.active_transcriptions.filter (fun j => j ≠ job_id) },
     [.job_failed job_id error])
  else (s, [])

end WsServer

namespace GpuManager

theorem dictInsert_length_le (k : ℕ) (v : TranscriptionJob)
    (m : List (ℕ × TranscriptionJob)) :
    (dictInsert k v m).length ≤ m.length + 1 := by
  unfold dictInsert
  split
  · simp
  · simp

theorem check_completed_jobs_active_le (now : ℚ) (s : JMState) :
    (check_completed_jobs now s).activeJobs.length ≤ s.activeJobs.length := by
  simpa [check_completed_jobs] using List.length_filter_le _ s.activeJobs

theorem process_tick_active_le (mc : ℕ) (now : ℚ) (best : Option ℕ) (s : JMState)
    (h : s.activeJobs.length ≤ mc) :
    (process_tick mc now best s).activeJobs.length ≤ mc := by
  have hfil : ∀ t : JMState, t.activeJobs.length ≤ mc →
      (check_completed_jobs now t).activeJobs.length ≤ mc := fun t ht =>
    le_trans (check_completed_jobs_active_le now t) ht
  unfold process_tick
  split
  · next hcond =>
      cases hpop : popMin s.jobQueue with
      | none => exact hfil _ h
      | some jr =>
          apply hfil
          simp only [start_job]
          calc (dictInsert _ _ s.activeJobs).length
              ≤ s.activeJobs.length + 1 := dictInsert_length_le _ _ _
            _ ≤ mc := by omega
  · exact hfil _ h

theorem cancel_job_active_le (id : ℕ) (s : JMState) :
    (cancel_job id s).1.activeJobs.length ≤ s.activeJobs.length := by
  unfold cancel_job
  split
  · simpa using List.length_filter_le _ s.activeJobs
  · exact le_refl _

theorem bestFold_eq_minFirst (gs : List GPUStats) (g : GPUStats) :
    bestFold g.gpu_id g.utilization gs = (minFirst g gs).gpu_id := by
  induction gs generalizing g with
  | nil => rfl
  | cons h t ih =>
      unfold bestFold minFirst
      by_cases hlt : h.utilization < g.utilization
      · simp only [if_pos hlt]; exact ih h
      · simp only [if_neg hlt]; exact ih g

theorem minFirst_mem (gs : List GPUStats) (g : GPUStats) :
    minFirst g gs ∈ g :: gs := by
  induction gs generalizing g with
  | nil => simp [minFirst]
  | cons h t ih =>
      unfold minFirst
      by_cases hlt : h.utilization < g.utilization
      · simp only [if_pos hlt]
        rcases List.mem_cons.mp (ih h) with h1 | h2
        · simp [h1]
        · simp [List.mem_cons, h2]
      · simp only [if_neg hlt]
        rcases List.mem_cons.mp (ih g) with h1 | h2
        · simp [h1]
        · simp [List.mem_cons, h2]

theorem minFirst_le (gs : List GPUStats) (g : GPUStats) :
    ∀ x ∈ g :: gs, (minFirst g gs).utilization ≤ x.utilization := by
  induction gs generalizing g with
  | nil =>
      intro x hx
      simp only [List.mem_singleton] at hx
      simp [minFirst, hx]
  | cons h t ih =>
      intro x hx
      unfold minFirst
      by_cases hlt : h.utilization < g.utilization
      · simp only [if_pos hlt]
        rcases List.mem_cons.mp hx with hxg | hx2
        · exact hxg ▸ le_trans (ih h h (by simp)) (le_of_lt hlt)
        · exact ih h x hx2
      · simp only [if_neg hlt]
        rcases List.mem_cons.mp hx with hxg | hx2
        · exact ih g x (by simp [hxg])
        · rcases List.mem_cons.mp hx2 with hxh | hx3
          · exact hxh ▸ le_trans (ih g g (by simp)) (not_lt.mp hlt)
          · exact ih g x (by simp [hx3])

theorem leAll_eq_true (l : List GPUStats) (x : GPUStats) :
    leAll l x = true ↔ ∀ y ∈ l, x.utilization ≤ y.utilization := by
  simp [leAll]

theorem leAll_eq_false (l : List GPUStats) (x : GPUStats)
    (y : GPUStats) (hy : y ∈ l) (hlt : y.utilization < x.utilization) :
    leAll l x = false := by
  rw [← Bool.not_eq_true, leAll_eq_true]
  intro hall
  exact absurd (hall y hy) (not_le.mpr hlt)

theorem find?_cons_true {α : Type} (p : α → Bool) (a : α) (l : List α)
    (h : p a = true) : (a :: l).find? p = some a := by
  simp [List.find?, h]

theorem find?_cons_false {α : Type} (p : α → Bool) (a : α) (l : List α)
    (h : p a = false) : (a :: l).find? p = l.find? p := by
  simp [List.find?, h]

theorem find?_congrOn {α : Type} (p q : α → Bool) (l : List α)
    (h : ∀ x ∈ l, p x = q x) : l.find? p = l.find? q := by
  induction l with
  | nil => rfl
  | cons a t ih =>
      have ha := h a (by simp)
      have ih2 := ih fun x hx => h x (by simp [hx])
      cases hq : q a with
      | true => rw [find?_cons_true q a t hq, find?_cons_true p a t (ha.trans hq)]
      | false =>
          rw [find?_cons_false q a t hq, find?_cons_false p a t (ha.trans hq), ih2]

/-- `minFirst` is the first element of the list that is a global minimum
of the utilizations. -/
theorem minFirst_find (gs : List GPUStats) (g : GPUStats) :
    (g :: gs).find? (leAll (g :: gs)) = some (minFirst g gs) := by
  induction gs generalizing g with
  | nil =>
      rw [find?_cons_true (leAll [g]) g [] (by simp [leAll])]
      rfl
  | cons h t ih =>
      by_cases hlt : h.utilization < g.utilization
      · have hPg : leAll (g :: h :: t) g = false :=
          leAll_eq_false _ _ h (by simp) hlt
        rw [find?_cons_false (leAll (g :: h :: t)) g (h :: t) hPg]
        have hcg : ∀ x ∈ h :: t, leAll (g :: h :: t) x = leAll (h :: t) x := by
          intro x _
          cases hQ : leAll (h :: t) x with
          | true =>
              have hxh : x.utilization ≤ h.utilization :=
                ((leAll_eq_true _ _).mp hQ) h (by simp)
              rw [leAll_eq_true]
              intro y hy
              rcases List.mem_cons.mp hy with hyg | hy2
              · exact hyg ▸ le_of_lt (lt_of_le_of_lt hxh hlt)
              · exact ((leAll_eq_true _ _).mp hQ) y hy2
          | false =>
              rw [← Bool.not_eq_true, leAll_eq_true] at hQ ⊢
              intro hall
              exact hQ fun y hy => hall y (by simp [List.mem_cons.mp hy])
        rw [find?_congrOn _ _ _ hcg, ih h]
        simp [minFirst, if_pos hlt]
      · have hgh : g.utilization ≤ h.utilization := not_lt.mp hlt
        have hR := ih g
        by_cases hRg : leAll (g :: t) g = true
        · have hPg : leAll (g :: h :: t) g = true := by
            rw [leAll_eq_true]
            intro y hy
            rcases List.mem_cons.mp hy with hyg | hy2
            · exact hyg ▸ le_refl _
            · rcases List.mem_cons.mp hy2 with hyh | hy3
              · exact hyh ▸ hgh
              · exact ((leAll_eq_true _ _).mp hRg) y (by simp [hy3])
          rw [find?_cons_true (leAll (g :: h :: t)) g (h :: t) hPg]
          rw [find?_cons_true (leAll (g :: t)) g t hRg] at hR
          simpa [minFirst, if_neg hlt] using hR
        · have hex : ∃ y ∈ t, y.utilization < g.utilization := by
            rw [leAll_eq_true] at hRg
            push_neg at hRg
            rcases hRg with ⟨y, hy, hny⟩
            rcases List.mem_cons.mp hy with hyg | hy2
            · exact absurd hny (by simp [hyg])
            · exact ⟨y, hy2, hny⟩
          rcases hex with ⟨y, hyt, hylt⟩
          have hPg : leAll (g :: h :: t) g = false :=
            leAll_eq_false _ _ y (by simp [hyt]) hylt
          have hPh : leAll (g :: h :: t) h = false :=
            leAll_eq_false _ _ y (by simp [hyt])
              (lt_of_lt_of_le hylt hgh)
          rw [find?_cons_false (leAll (g :: h :: t)) g (h :: t) hPg,
              find?_cons_false (leAll (g :: h :: t)) h t hPh]
          have hRg0 : leAll (g :: t) g = false := by
            cases hb : leAll (g :: t) g with
            | true => exact absurd hb hRg
            | false => rfl
          rw [find?_cons_false (leAll (g :: t)) g t hRg0] at hR
          have hct : ∀ x ∈ t, leAll (g :: h :: t) x = leAll (g :: t) x := by
            intro x _
            cases hQ : leAll (g :: t) x with
            | true =>
                have hxg : x.utilization ≤ g.utilization :=
                  ((leAll_eq_true _ _).mp hQ) g (by simp)
                rw [leAll_eq_true]
                intro z hz
                rcases List.mem_cons.mp hz with hzg | hz2
                · exact hzg ▸ hxg
                · rcases List.mem_cons.mp hz2 with hzh | hz3
                  · exact hzh ▸ le_trans hxg hgh
                  · exact ((leAll_eq_true _ _).mp hQ) z (by simp [hz3])
            | false =>
                rw [← Bool.not_eq_true, leAll_eq_true] at hQ ⊢
                intro hall
                apply hQ
                intro z hz
                rcases List.mem_cons.mp hz with hzg | hz2
                · exact hall z (by simp [hzg])
                · exact hall z (by simp [hz2])
          rw [find?_congrOn _ _ _ hct, hR]
          simp [minFirst, if_neg hlt]

/-- C1: in every state a `GPUJobManager` with bound `max_concurrent_jobs`
can reach — under any interleaving of submissions, scheduler ticks and
cancellations — the number of jobs in the active set never exceeds the
bound: the admission loop starts a queued job only when
`len(active_jobs) < max_concurrent_jobs`. -/
theorem active_count_le_max (mc : ℕ) (s : JMState) (h : Reachable mc s) :
    s.activeJobs.length ≤ mc := by
  induction h with
  | init => simp [initJM]
  | add j _ ih => simpa [add_job] using ih
  | tick now best _ ih => exact process_tick_active_le mc now best _ ih
  | cancel id _ ih => exact le_trans (cancel_job_active_le id _) ih

/-- Witness for C1: a concrete reachable state — one submission then one
admission tick under bound 2 — satisfies the bound. -/
theorem active_count_le_max_witness :
    (process_tick 2 0 none (add_job
        { job_id := 1, video_path := "a.mp4", priority := 1, created_at := 0 }
        initJM)).activeJobs.length ≤ 2 :=
  active_count_le_max 2 _
    (Reachable.tick 0 none (Reachable.add _ Reachable.init))

/-- C2 (the code at the claim's failing input): submit job 1 at time 0,
admit it at the tick at time 0, tick again at time 61 with no signal of
any kind from a transcription pipeline — the manager nevertheless moves
job 1 to `completed_jobs`, i.e. `_check_completed_jobs` infers completion
purely from elapsed wall-clock time (`now - created_at > 60`),
contradicting the claim. -/
theorem time_based_autocompletion :
    (process_tick 2 61 none (process_tick 2 0 none (add_job
        { job_id := 1, video_path := "a.mp4", priority := 1, created_at := 0 }
        initJM))).completedJobs = [1] ∧
    (process_tick 2 61 none (process_tick 2 0 none (add_job
        { job_id := 1, video_path := "a.mp4", priority := 1, created_at := 0 }
        initJM))).activeJobs = [] := by
  constructor <;>
    norm_num [process_tick, add_job, initJM, start_job, check_completed_jobs,
      popMin, queueMin, dictInsert]

/-- C7 counterexample: in a state whose queue holds job 1 (not yet
admitted), `cancel_job(1)` returns `False` and leaves the queue
untouched — contradicting the claim that a queued job is removed from the
queue and the call succeeds. -/
theorem cancel_queued_job_fails :
    cancel_job 1
        { jobQueue := [{ job_id := 1, video_path := "a.mp4", priority := 1,
                         created_at := 0 }]
          activeJobs := [], completedJobs := [] } =
      ({ jobQueue := [{ job_id := 1, video_path := "a.mp4", priority := 1,
                        created_at := 0 }]
         activeJobs := [], completedJobs := [] }, false) := by
  decide

theorem length_filter_lt_of_any (id : ℕ) (l : List (ℕ × TranscriptionJob))
    (h : l.any (fun p => p.1 = id) = true) :
    (l.filter (fun p => p.1 ≠ id)).length < l.length := by
  rw [List.length_filter_lt_length_iff_exists]
  rcases List.any_eq_true.mp h with ⟨x, hx, hpx⟩
  exact ⟨x, hx, by simpa using of_decide_eq_true hpx⟩

/-- C7 amended: `cancel_job` succeeds exactly on jobs currently in the
active set; success frees the concurrency slot at once (the active count
strictly drops and the id no longer counts toward capacity) while the
queue and the completed list are untouched; on queued, unknown or
completed jobs it returns `False` and changes nothing. -/
theorem cancel_job_spec (id : ℕ) (s : JMState) :
    ((cancel_job id s).2 = true ↔ s.activeJobs.any (fun p => p.1 = id) = true) ∧
    ((cancel_job id s).2 = true →
      (cancel_job id s).1.activeJobs.length < s.activeJobs.length ∧
      (cancel_job id s).1.activeJobs.all (fun p => p.1 ≠ id) = true ∧
      (cancel_job id s).1.jobQueue = s.jobQueue ∧
      (cancel_job id s).1.completedJobs = s.completedJobs) ∧
    ((cancel_job id s).2 = false → (cancel_job id s).1 = s) := by
  unfold cancel_job
  by_cases h : s.activeJobs.any (fun p => p.1 = id) = true
  · refine ⟨by simp [h], fun _ => ⟨?_, ?_, ?_, ?_⟩, ?_⟩
    · simpa [h] using length_filter_lt_of_any id s.activeJobs h
    · simp [h, List.all_filter]
    · simp [h]
    · simp [h]
    · simp [h]
  · refine ⟨by simp [h], fun hc => ?_, fun _ => by simp [h]⟩
    simp [h] at hc

/-- Witness for C7's amended theorem: cancelling the active job 1 in a
concrete one-active-job state strictly drops the active count. -/
theorem cancel_job_spec_witness :
    (cancel_job 1
        { jobQueue := []
          activeJobs := [(1, { job_id := 1, video_path := "a.mp4", priority := 1,
                               created_at := 0 })]
          completedJobs := [] }).1.activeJobs.length < 1 :=
  ((cancel_job_spec 1 _).2.1 (by decide)).1

/-- C5 counterexample: on `tieSnapshot`, whose devices are tied at
utilization 30 with ids listed as 5 then 2, `get_best_gpu` returns 5 —
the first listed device — not the lowest id 2, refuting the claim's
lowest-id tie-break. -/
theorem get_best_gpu_tie_not_lowest_id :
    get_best_gpu (some tieSnapshot) = some 5 ∧
    tieSnapshot.gpus.map (fun g => g.gpu_id) = [5, 2] ∧
    tieSnapshot.gpus.map (fun g => g.utilization) = [30, 30] := by
  refine ⟨?_, rfl, rfl⟩
  norm_num [get_best_gpu, tieSnapshot, bestFold]

/-- C5 amended: with no snapshot or an empty device list `get_best_gpu`
returns the none value; on a non-empty device list it returns the id of
the device `minFirst hd tl`, which is a device of the snapshot of
globally minimal utilization and, precisely, the first device of the list
attaining that minimum (`find?` with the minimality predicate `leAll`) —
ties are broken by list position, not by lowest device id. -/
theorem get_best_gpu_first_min (st : SystemStats) :
    get_best_gpu none = none ∧
    (st.gpus = [] → get_best_gpu (some st) = none) ∧
    (∀ hd tl, st.gpus = hd :: tl →
      get_best_gpu (some st) = some (minFirst hd tl).gpu_id ∧
      minFirst hd tl ∈ st.gpus ∧
      (∀ x ∈ st.gpus, (minFirst hd tl).utilization ≤ x.utilization) ∧
      st.gpus.find? (leAll st.gpus) = some (minFirst hd tl)) := by
  refine ⟨rfl, fun h => by simp [get_best_gpu, h], fun hd tl h => ?_⟩
  refine ⟨?_, h ▸ minFirst_mem tl hd, h ▸ minFirst_le tl hd, h ▸ minFirst_find tl hd⟩
  simp only [get_best_gpu, h]
  rw [bestFold_eq_minFirst]

/-- Witness for C5's amended theorem, at the concrete tied snapshot. -/
theorem get_best_gpu_first_min_witness :
    get_best_gpu (some tieSnapshot) =
      some (minFirst
        { gpu_id := 5, name := "gpu-a", utilization := 30, memory_used := 0
          memory_total := 8192, memory_free := 8192, temperature := 40
          power_draw := 0, driver_version := "d" }
        [{ gpu_id := 2, name := "gpu-b", utilization := 30, memory_used := 0
           memory_total := 8192, memory_free := 8192, temperature := 40
           power_draw := 0, driver_version := "d" }]).gpu_id :=
  ((get_best_gpu_first_min tieSnapshot).2.2 _ _ rfl).1

/-- C6 counterexample: at exactly 4000MB free with the runtime flag true,
`get_optimal_settings` disables TensorRT (the code tests
`memory_free > 4000`, strictly), and at exactly 6000MB free it selects
fp32 — both boundary-equality statements of the claim fail. -/
theorem optimal_settings_boundary_strict :
    (get_optimal_settings (some boundary4000)).use_tensorrt = false ∧
    boundary4000.tensorrt_available = true ∧
    boundary4000.gpus.map (fun g => g.memory_free) = [4000] ∧
    (get_optimal_settings (some boundary6000)).precision = "fp32" ∧
    boundary6000.gpus.map (fun g => g.memory_free) = [6000] := by
  refine ⟨?_, rfl, rfl, ?_, rfl⟩ <;>
    norm_num [get_optimal_settings, get_best_gpu, bestFold, boundary4000,
      boundary6000, List.find?]

theorem pyInt_of_nonneg (q : ℚ) (h : 0 ≤ q) : pyInt q = ⌊q⌋ := if_pos h

/-- C6 amended: when a best device is found, `get_optimal_settings`
reports `use_gpu`; the accelerated runtime is enabled iff the runtime
flag is set and free memory is **strictly** above 4000MB; precision is
fp16 iff free memory is **strictly** above 6000MB, else fp32; and the
batch size is `clamp(floor(freeMemory / 2000), 1, 4)`.  At exactly 4000MB
the accelerated runtime is therefore off, and at exactly 6000MB precision
is fp32. -/
theorem get_optimal_settings_thresholds (st : SystemStats) (b : ℕ) (g : GPUStats)
    (hb : get_best_gpu (some st) = some b)
    (hg : st.gpus.find? (fun x => x.gpu_id = b) = some g)
    (hfree : 0 ≤ g.memory_free) :
    (get_optimal_settings (some st)).use_gpu = true ∧
    ((get_optimal_settings (some st)).use_tensorrt = true ↔
      (st.tensorrt_available = true ∧ 4000 < g.memory_free)) ∧
    ((get_optimal_settings (some st)).precision = "fp16" ↔ 6000 < g.memory_free) ∧
    (get_optimal_settings (some st)).batch_size =
      min 4 (max 1 ⌊g.memory_free / 2000⌋) := by
  cases hgs : st.gpus with
  | nil => rw [get_best_gpu] at hb; simp [hgs] at hb
  | cons a t =>
      have hset : get_optimal_settings (some st) =
          { use_gpu := true
            use_tensorrt := st.tensorrt_available && decide (g.memory_free > 4000)
            batch_size := min 4 (max 1 (pyInt (g.memory_free / 2000)))
            precision := if g.memory_free > 6000 then "fp16" else "fp32"
            gpu_id := some b
            memory_available := some g.memory_free } := by
        simp only [get_optimal_settings]
        split
        · next heq => rw [hgs] at heq; exact absurd heq (by simp)
        · split
          · next heq => rw [hb] at heq; exact absurd heq (by simp)
          · next best heq =>
              rw [hb] at heq
              injection heq with hbb
              subst hbb
              split
              · next heq2 => rw [hg] at heq2; exact absurd heq2 (by simp)
              · next gpu_stats heq2 =>
                  rw [hg] at heq2
                  injection heq2 with hgg
                  subst hgg
                  rfl
      rw [hset]
      refine ⟨rfl, ?_, ?_, ?_⟩
      · simp [Bool.and_eq_true, decide_eq_true_iff]
      · by_cases hc : (6000 : ℚ) < g.memory_free
        · simp [hc]
        · simp only [gt_iff_lt, if_neg hc]
          constructor
          · intro he; exact absurd he (by decide)
          · intro hlt; exact absurd hlt hc
      · simp only
        rw [pyInt_of_nonneg _ (by positivity)]

/-- Witness for C6's amended theorem, at the 4000MB boundary snapshot. -/
theorem get_optimal_settings_thresholds_witness :
    (get_optimal_settings (some boundary4000)).use_gpu = true :=
  (get_optimal_settings_thresholds boundary4000 0
      { gpu_id := 0, name := "gpu", utilization := 50, memory_used := 4192
        memory_total := 8192, memory_free := 4000, temperature := 40
        power_draw := 0, driver_version := "d" }
      rfl rfl (by norm_num)).1

/-- C9 counterexample: with both GPU telemetry sources failing but the
tensorrt import probe succeeding, `_collect_stats` returns a snapshot
with an empty device list whose `tensorrt_available` flag is `true` — the
feature flags are set from their own independent probes, not forced false
by the GPU telemetry failure. -/
theorem collect_stats_flags_not_forced_false :
    (collect_stats none none 0 0 0 (some "12.1") true).gpus = [] ∧
    (collect_stats none none 0 0 0 (some "12.1") true).tensorrt_available = true := by
  exact ⟨rfl, rfl⟩

/-- C9 amended: `_collect_stats` is total (it returns a snapshot for
every combination of probe outcomes, never throwing): the primary
telemetry source's device list is used whenever it succeeds; on its
failure the nvidia-smi fallback's list is used; when both fail the device
list is empty; and each feature field degrades according to its own
probe — `tensorrt_available` is exactly the tensorrt import probe result
(`false` when that probe fails) and `cuda_version` is `"Unknown"` exactly
when the nvcc probe fails. -/
theorem collect_stats_degrades (l : List GPUStats)
    (prim smi : Option (List GPUStats)) (cpu ram ramT : ℚ)
    (cuda : Option String) (trt : Bool) :
    (collect_stats (some l) smi cpu ram ramT cuda trt).gpus = l ∧
    (collect_stats none (some l) cpu ram ramT cuda trt).gpus = l ∧
    (collect_stats none none cpu ram ramT cuda trt).gpus = [] ∧
    (collect_stats prim smi cpu ram ramT cuda trt).tensorrt_available = trt ∧
    (collect_stats prim smi cpu ram ramT none trt).cuda_version = "Unknown" ∧
    (collect_stats none none cpu ram ramT none false).tensorrt_available = false := by
  refine ⟨rfl, rfl, rfl, ?_, ?_, rfl⟩ <;> cases prim <;> rfl

end GpuManager

namespace Transcriber

/-- C3 counterexample: for the fireredasr backend followed by Chinese
post-processing, `transcribe_audio` delivers the percent sequence
5, 10, 100, 90, 100 — the backend placeholder reports 100 on completion
and the pipeline then reports 90 for post-processing, so the sequence
decreases before the terminal 100, refuting the claim's non-decreasing
property for this backend family. -/
theorem fired_progress_not_monotone :
    (transcribe_audio zhPipelineEnv firedZhCfg).2.map Prod.fst =
        [5, 10, 100, 90, 100] ∧
    ¬ List.Chain' (· ≤ ·)
        ((transcribe_audio zhPipelineEnv firedZhCfg).2.map Prod.fst) := by
  have h : (transcribe_audio zhPipelineEnv firedZhCfg).2.map Prod.fst =
      [5, 10, 100, 90, 100] := by decide
  refine ⟨h, ?_⟩
  rw [h]
  simp [List.chain'_cons]

/-- C3 amended: the delivered percent sequence is non-decreasing for the
whisper backend under every configuration and environment, and for the
fireredasr backend whenever Chinese post-processing does not apply; when
the fireredasr backend is followed by Chinese post-processing, the
backend's final 100% report precedes the 90% post-processing milestone
and the sequence is not monotone. -/
theorem progress_monotone_unless_fired_postprocessing
    (env : PipelineEnv) (cfg : TranscriptionConfig)
    (h : create_transcriber cfg.model_name = some Backend.whisper ∨
         zh_post_applies env cfg = false) :
    List.Chain' (· ≤ ·) ((transcribe_audio env cfg).2.map Prod.fst) := by
  by_cases hc : (check_model_compatibility env.gpu_available env.memory_free
      cfg.model_name).compatible = true
  · cases hct : create_transcriber cfg.model_name with
    | none => simp [transcribe_audio, hc, hct]
    | some b =>
        cases b with
        | whisper =>
            by_cases hpp : zh_post_applies env cfg = true
            · cases hcp : env.chinese_processor with
              | none => rw [zh_post_applies, hcp] at hpp; simp at hpp
              | some proc =>
                  simp [transcribe_audio, hc, hct, hpp, hcp,
                    whisper_transcribe, List.chain'_cons]
            · have hpp2 : zh_post_applies env cfg = false := by
                cases hb : zh_post_applies env cfg with
                | true => exact absurd hb hpp
                | false => rfl
              simp [transcribe_audio, hc, hct, hpp2,
                whisper_transcribe, List.chain'_cons]
        | fireredasr =>
            rcases h with hw | hnp
            · rw [hct] at hw
              exact absurd hw (by simp)
            · simp [transcribe_audio, hc, hct, hnp,
                fireredasr_transcribe, List.chain'_cons]
  · have hc2 : (check_model_compatibility env.gpu_available env.memory_free
        cfg.model_name).compatible = false := by
      cases hb : (check_model_compatibility env.gpu_available env.memory_free
          cfg.model_name).compatible with
      | true => exact absurd hb hc
      | false => rfl
    simp [transcribe_audio, hc2]

/-- Witness for C3's amended theorem: the whisper backend with Chinese
post-processing delivers 5, 10, 80, 90, 100 — non-decreasing. -/
theorem progress_monotone_unless_fired_postprocessing_witness :
    List.Chain' (· ≤ ·)
      ((transcribe_audio zhPipelineEnv whisperZhCfg).2.map Prod.fst) :=
  progress_monotone_unless_fired_postprocessing zhPipelineEnv whisperZhCfg
    (Or.inl (by decide))

end Transcriber

namespace Transcriber

theorem check_compatible_iff (a : Bool) (f : ℕ) (n : String) :
    (check_model_compatibility a f n).compatible = true ↔
      (a = true ∧ model_requirements n ≤ f) := by
  cases a with
  | false => simp [check_model_compatibility]
  | true =>
      by_cases hm : f ≥ model_requirements n
      · simp [check_model_compatibility, hm]
      · simp [check_model_compatibility, hm]

/-- C4: `transcribe_audio` raises the incompatible-model `RuntimeError`
exactly when no GPU is available or the free memory is strictly below the
model's requirement in the static table; in that case no progress call is
ever delivered (nothing has begun).  Boundary equality passes: with
exactly 4096MB free `whisper-large-v3` (requiring 4096MB) is accepted,
while with 4095MB it is rejected with the incompatible-model error. -/
theorem incompatible_error_iff (env : PipelineEnv) (cfg : TranscriptionConfig) :
    ((∃ r, (transcribe_audio env cfg).1 = .error (.incompatible r)) ↔
      (env.gpu_available = false ∨
        env.memory_free < model_requirements cfg.model_name)) ∧
    ((∃ r, (transcribe_audio env cfg).1 = .error (.incompatible r)) →
      (transcribe_audio env cfg).2 = []) ∧
    (∃ v, (transcribe_audio { gpu_available := true, memory_free := 4096 }
        { model_name := "whisper-large-v3" }).1 = .ok v) ∧
    (∃ r, (transcribe_audio { gpu_available := true, memory_free := 4095 }
        { model_name := "whisper-large-v3" }).1 = .error (.incompatible r)) := by
  refine ⟨?_, ?_, ⟨_, rfl⟩, ⟨_, rfl⟩⟩
  · by_cases hc : (check_model_compatibility env.gpu_available env.memory_free
        cfg.model_name).compatible = true
    · have hrhs := (check_compatible_iff env.gpu_available env.memory_free
        cfg.model_name).mp hc
      constructor
      · intro hex
        rcases hex with ⟨r, hr⟩
        cases hct : create_transcriber cfg.model_name with
        | none => rw [transcribe_audio.eq_def] at hr; simp [hc, hct] at hr
        | some b => rw [transcribe_audio.eq_def] at hr; simp [hc, hct] at hr
      · intro hor
        rcases hor with ha | hm
        · rw [ha] at hrhs; exact absurd hrhs.1 (by simp)
        · exact absurd hrhs.2 (by omega)
    · have hc2 : (check_model_compatibility env.gpu_available env.memory_free
          cfg.model_name).compatible = false := by
        cases hb : (check_model_compatibility env.gpu_available env.memory_free
            cfg.model_name).compatible with
        | true => exact absurd hb hc
        | false => rfl
      constructor
      · intro _
        have := (check_compatible_iff env.gpu_available env.memory_free
          cfg.model_name).not.mp (by simp [hc2])
        cases ha : env.gpu_available with
        | false => exact Or.inl rfl
        | true =>
            refine Or.inr ?_
            by_cases hm : env.memory_free < model_requirements cfg.model_name
            · exact hm
            · exact absurd ⟨ha, by omega⟩ this
      · intro _
        refine ⟨(check_model_compatibility env.gpu_available env.memory_free
          cfg.model_name).reason, ?_⟩
        rw [transcribe_audio.eq_def]
        simp [hc2]
  · intro hex
    rcases hex with ⟨r, hr⟩
    by_cases hc : (check_model_compatibility env.gpu_available env.memory_free
        cfg.model_name).compatible = true
    · cases hct : create_transcriber cfg.model_name with
      | none => rw [transcribe_audio.eq_def] at hr; simp [hc, hct] at hr
      | some b => rw [transcribe_audio.eq_def] at hr; simp [hc, hct] at hr
    · have hc2 : (check_model_compatibility env.gpu_available env.memory_free
          cfg.model_name).compatible = false := by
        cases hb : (check_model_compatibility env.gpu_available env.memory_free
            cfg.model_name).compatible with
        | true => exact absurd hb hc
        | false => rfl
      rw [transcribe_audio.eq_def]
      simp [hc2]

/-- Witness for C4, instantiating the iff at a GPU-less environment. -/
theorem incompatible_error_iff_witness :
    ∃ r, (transcribe_audio { gpu_available := false, memory_free := 0 }
        { model_name := "whisper-small" }).1 =
      .error (.incompatible r) :=
  (incompatible_error_iff
      { gpu_available := false, memory_free := 0 }
      { model_name := "whisper-small" }).1.mpr (Or.inl rfl)

end Transcriber


namespace Subtitles

theorem digitChar_isDigit (n : ℕ) (h : n < 10) : (digitChar n).isDigit = true := by
  interval_cases n <;> decide

theorem digitVal_digitChar (n : ℕ) (h : n < 10) : digitVal (digitChar n) = n := by
  interval_cases n <;> decide

theorem toDigitsAux_fuel (f1 : ℕ) : ∀ f2 n acc, n < f1 → n < f2 →
    toDigitsAux f1 n acc = toDigitsAux f2 n acc := by
  induction f1 with
  | zero => intro f2 n acc h1 _; omega
  | succ a ih =>
      intro f2 n acc h1 h2
      cases f2 with
      | zero => omega
      | succ b =>
          by_cases hn : n < 10
          · simp [toDigitsAux, hn]
          · have hd : n / 10 < n := Nat.div_lt_self (by omega) (by omega)
            simp only [toDigitsAux, if_neg hn]
            exact ih b (n / 10) _ (by omega) (by omega)

theorem toDigitsAux_acc (fuel : ℕ) : ∀ n acc, n < fuel →
    toDigitsAux fuel n acc = toDigitsAux fuel n [] ++ acc := by
  induction fuel with
  | zero => intro n acc h; omega
  | succ f ih =>
      intro n acc h
      by_cases hn : n < 10
      · simp [toDigitsAux, hn]
      · have hd : n / 10 < n := Nat.div_lt_self (by omega) (by omega)
        have hf : n / 10 < f := by omega
        simp only [toDigitsAux, if_neg hn]
        rw [ih (n / 10) (digitChar (n % 10) :: acc) hf,
            ih (n / 10) [digitChar (n % 10)] hf, List.append_assoc]
        rfl

theorem toDigits_step (n : ℕ) :
    toDigits n =
      if n < 10 then [digitChar n]
      else toDigits (n / 10) ++ [digitChar (n % 10)] := by
  by_cases hn : n < 10
  · simp [toDigits, toDigitsAux, hn]
  · have hd : n / 10 < n := Nat.div_lt_self (by omega) (by omega)
    rw [if_neg hn]
    have h1 : toDigits n = toDigitsAux n (n / 10) [digitChar (n % 10)] := by
      simp [toDigits, toDigitsAux, hn]
    rw [h1, toDigitsAux_acc n (n / 10) _ (by omega),
        toDigitsAux_fuel n (n / 10 + 1) (n / 10) [] (by omega) (by omega)]
    rfl

theorem toDigits_ne_nil (n : ℕ) : toDigits n ≠ [] := by
  rw [toDigits_step]
  by_cases hn : n < 10
  · simp [hn]
  · simp [hn]

theorem toDigits_all_digit (n : ℕ) : ∀ c ∈ toDigits n, c.isDigit = true := by
  induction n using Nat.strong_induction_on with
  | _ n ih =>
      intro c hc
      rw [toDigits_step] at hc
      by_cases hn : n < 10
      · rw [if_pos hn] at hc
        simp only [List.mem_singleton] at hc
        exact hc ▸ digitChar_isDigit n hn
      · rw [if_neg hn] at hc
        rcases List.mem_append.mp hc with h1 | h2
        · exact ih (n / 10) (Nat.div_lt_self (by omega) (by omega)) c h1
        · simp only [List.mem_singleton] at h2
          exact h2 ▸ digitChar_isDigit (n % 10) (by omega)

theorem foldl_toDigits (n : ℕ) : ∀ a : ℕ,
    (toDigits n).foldl (fun a c => 10 * a + digitVal c) a =
      a * 10 ^ (toDigits n).length + n := by
  induction n using Nat.strong_induction_on with
  | _ n ih =>
      intro a
      rw [toDigits_step]
      by_cases hn : n < 10
      · simp [hn, List.foldl, digitVal_digitChar n hn]
        ring
      · rw [if_neg hn, List.foldl_append, List.length_append]
        have hd : n / 10 < n := Nat.div_lt_self (by omega) (by omega)
        rw [ih (n / 10) hd a]
        simp [List.foldl, digitVal_digitChar (n % 10) (by omega)]
        rw [pow_succ]
        have h10 : 10 * (n / 10) + n % 10 = n := by omega
        ring_nf
        nlinarith [h10]

theorem fromDigits_toDigits (n : ℕ) : fromDigits (toDigits n) = n := by
  rw [fromDigits, foldl_toDigits n 0]
  simp

end Subtitles

namespace Subtitles

theorem fromDigits_cons_zero (ds : List Char) :
    fromDigits ('0' :: ds) = fromDigits ds := by
  simp [fromDigits, List.foldl, digitVal]

theorem fromDigits_pad2 (n : ℕ) : fromDigits (pad2 n) = n := by
  unfold pad2
  split
  · rw [fromDigits_cons_zero, fromDigits_toDigits]
  · exact fromDigits_toDigits n

theorem fromDigits_pad3 (n : ℕ) : fromDigits (pad3 n) = n := by
  unfold pad3
  split
  · rw [fromDigits_cons_zero, fromDigits_cons_zero, fromDigits_toDigits]
  · split
    · rw [fromDigits_cons_zero, fromDigits_toDigits]
    · exact fromDigits_toDigits n

theorem pad2_ne_nil (n : ℕ) : pad2 n ≠ [] := by
  unfold pad2
  split
  · simp
  · exact toDigits_ne_nil n

theorem pad3_ne_nil (n : ℕ) : pad3 n ≠ [] := by
  unfold pad3
  split
  · simp
  · split
    · simp
    · exact toDigits_ne_nil n

theorem pad2_all_digit (n : ℕ) : ∀ c ∈ pad2 n, c.isDigit = true := by
  unfold pad2
  split
  · intro c hc
    rcases List.mem_cons.mp hc with h1 | h2
    · simp [h1]
    · exact toDigits_all_digit n c h2
  · exact toDigits_all_digit n

theorem pad3_all_digit (n : ℕ) : ∀ c ∈ pad3 n, c.isDigit = true := by
  unfold pad3
  split
  · intro c hc
    rcases List.mem_cons.mp hc with h1 | h2
    · simp [h1]
    · rcases List.mem_cons.mp h2 with h3 | h4
      · simp [h3]
      · exact toDigits_all_digit n c h4
  · split
    · intro c hc
      rcases List.mem_cons.mp hc with h1 | h2
      · simp [h1]
      · exact toDigits_all_digit n c h2
    · exact toDigits_all_digit n

theorem takeWhile_append_stop (p : Char → Bool) (ds : List Char) (c : Char)
    (rest : List Char) (hds : ∀ d ∈ ds, p d = true) (hc : p c = false) :
    (ds ++ c :: rest).takeWhile p = ds ∧
    (ds ++ c :: rest).dropWhile p = c :: rest := by
  induction ds with
  | nil => simp [List.takeWhile_cons, List.dropWhile_cons, hc]
  | cons d ds ih =>
      have hd : p d = true := hds d (by simp)
      have ihr := ih fun x hx => hds x (by simp [hx])
      simp only [List.cons_append, List.takeWhile_cons, List.dropWhile_cons, hd]
      simp [ihr.1, ihr.2]

theorem expectChar_self (c : Char) (l : List Char) :
    expectChar c (c :: l) = some l := by
  simp [expectChar]

theorem parseNat_digits (ds : List Char) (c : Char) (rest : List Char)
    (hne : ds ≠ []) (hds : ∀ d ∈ ds, d.isDigit = true) (hc : c.isDigit = false) :
    parseNat (ds ++ c :: rest) = some (fromDigits ds, c :: rest) := by
  have hspan := takeWhile_append_stop Char.isDigit ds c rest hds hc
  have hemp : ds.isEmpty = false := by
    cases ds with
    | nil => exact absurd rfl hne
    | cons a l => rfl
  unfold parseNat
  rw [hspan.1, hspan.2]
  simp [hemp]

theorem parseNat_toDigits (n : ℕ) (c : Char) (rest : List Char)
    (hc : c.isDigit = false) :
    parseNat (toDigits n ++ c :: rest) = some (n, c :: rest) := by
  rw [parseNat_digits (toDigits n) c rest (toDigits_ne_nil n)
      (toDigits_all_digit n) hc, fromDigits_toDigits]

theorem parseNat_pad2 (n : ℕ) (c : Char) (rest : List Char)
    (hc : c.isDigit = false) :
    parseNat (pad2 n ++ c :: rest) = some (n, c :: rest) := by
  rw [parseNat_digits (pad2 n) c rest (pad2_ne_nil n)
      (pad2_all_digit n) hc, fromDigits_pad2]

theorem parseNat_pad3 (n : ℕ) (c : Char) (rest : List Char)
    (hc : c.isDigit = false) :
    parseNat (pad3 n ++ c :: rest) = some (n, c :: rest) := by
  rw [parseNat_digits (pad3 n) c rest (pad3_ne_nil n)
      (pad3_all_digit n) hc, fromDigits_pad3]

theorem parse_time_format (sep : Char) (ms : ℕ) (c : Char) (rest : List Char)
    (hsep : sep.isDigit = false) (hc : c.isDigit = false) :
    parse_time sep (format_time sep ms ++ c :: rest) = some (ms, c :: rest) := by
  unfold format_time parse_time
  simp only [List.append_assoc, List.cons_append]
  rw [parseNat_pad2 (ms / 3600000) ':' _ (by decide)]
  simp only [Option.bind_eq_bind, Option.some_bind]
  rw [expectChar_self]
  simp only [Option.some_bind]
  rw [parseNat_pad2 (ms % 3600000 / 60000) ':' _ (by decide)]
  simp only [Option.some_bind]
  rw [expectChar_self]
  simp only [Option.some_bind]
  rw [parseNat_pad2 (ms % 60000 / 1000) sep _ hsep]
  simp only [Option.some_bind]
  rw [expectChar_self]
  simp only [Option.some_bind]
  rw [parseNat_pad3 (ms % 1000) c rest hc]
  simp only [Option.some_bind]
  congr 1
  ext : 1
  · omega
  · rfl

end Subtitles

namespace Subtitles

theorem arrowSep_append (X : List Char) :
    arrowSep ++ X = ' ' :: '-' :: '-' :: '>' :: ' ' :: X := rfl

theorem expectChars_arrow (X : List Char) :
    expectChars arrowSep (' ' :: '-' :: '-' :: '>' :: ' ' :: X) = some X := by
  simp [arrowSep, expectChars, expectChar]

theorem parse_srt_block_render (i : ℕ) (s : SubtitleSegment) (rest : List Char)
    (h : ∀ c ∈ s.text, c ≠ '\n') :
    parse_srt_block
        (toDigits i ++ '\n' ::
          (format_srt_time s.startMs ++ arrowSep ++
            (format_srt_time s.stopMs ++ '\n' ::
              (s.text ++ '\n' :: '\n' :: rest)))) =
      some ((s.startMs, s.stopMs, s.text), rest) := by
  have hb : ∀ c ∈ s.text, (c != '\n') = true := fun c hc => by
    simpa using h c hc
  have hspan := takeWhile_append_stop (fun c => c != '\n') s.text '\n'
    ('\n' :: rest) hb (by decide)
  unfold parse_srt_block
  rw [parseNat_toDigits i '\n' _ (by decide)]
  simp only [Option.bind_eq_bind, Option.some_bind]
  rw [expectChar_self]
  simp only [Option.some_bind]
  rw [List.append_assoc, arrowSep_append, format_srt_time,
      parse_time_format ',' s.startMs ' ' _ (by decide) (by decide)]
  simp only [Option.some_bind]
  rw [expectChars_arrow]
  simp only [Option.some_bind]
  rw [format_srt_time, parse_time_format ',' s.stopMs '\n' _ (by decide) (by decide)]
  simp only [Option.some_bind]
  rw [expectChar_self]
  simp only [Option.some_bind]
  rw [hspan.1, hspan.2]
  rw [expectChar_self]
  simp only [Option.some_bind]
  rw [expectChar_self]
  simp only [Option.some_bind]

theorem parse_vtt_block_render (s : SubtitleSegment) (rest : List Char)
    (h : ∀ c ∈ s.text, c ≠ '\n') :
    parse_vtt_block
        (format_vtt_time s.startMs ++ arrowSep ++
          (format_vtt_time s.stopMs ++ '\n' ::
            (s.text ++ '\n' :: '\n' :: rest))) =
      some ((s.startMs, s.stopMs, s.text), rest) := by
  have hb : ∀ c ∈ s.text, (c != '\n') = true := fun c hc => by
    simpa using h c hc
  have hspan := takeWhile_append_stop (fun c => c != '\n') s.text '\n'
    ('\n' :: rest) hb (by decide)
  unfold parse_vtt_block
  rw [List.append_assoc, arrowSep_append, format_vtt_time,
      parse_time_format '.' s.startMs ' ' _ (by decide) (by decide)]
  simp only [Option.bind_eq_bind, Option.some_bind]
  rw [expectChars_arrow]
  simp only [Option.some_bind]
  rw [format_vtt_time, parse_time_format '.' s.stopMs '\n' _ (by decide) (by decide)]
  simp only [Option.some_bind]
  rw [expectChar_self]
  simp only [Option.some_bind]
  rw [hspan.1, hspan.2]
  rw [expectChar_self]
  simp only [Option.some_bind]
  rw [expectChar_self]
  simp only [Option.some_bind]

end Subtitles

namespace Subtitles

theorem parse_srt_blocks_ne (f : ℕ) (cs : List Char) (hne : cs ≠ []) :
    parse_srt_blocks (f + 1) cs = (do
      let (tup, r) ← parse_srt_block cs
      let rest ← parse_srt_blocks f r
      some (tup :: rest)) := by
  have hemp : cs.isEmpty = false := by
    cases cs with
    | nil => exact absurd rfl hne
    | cons a l => rfl
  rw [parse_srt_blocks]
  simp [hemp]

theorem parse_vtt_blocks_ne (f : ℕ) (cs : List Char) (hne : cs ≠ []) :
    parse_vtt_blocks (f + 1) cs = (do
      let (tup, r) ← parse_vtt_block cs
      let rest ← parse_vtt_blocks f r
      some (tup :: rest)) := by
  have hemp : cs.isEmpty = false := by
    cases cs with
    | nil => exact absurd rfl hne
    | cons a l => rfl
  rw [parse_vtt_blocks]
  simp [hemp]

theorem parse_srt_blocks_render (segs : List SubtitleSegment) :
    ∀ i fuel, segs.length ≤ fuel →
      (∀ s ∈ segs, ∀ c ∈ s.text, c ≠ '\n') →
      parse_srt_blocks fuel (export_srt_from i segs) =
        some (segs.map fun s => (s.startMs, s.stopMs, s.text)) := by
  induction segs with
  | nil =>
      intro i fuel _ _
      show parse_srt_blocks fuel [] = some []
      rw [parse_srt_blocks.eq_def]
      rfl
  | cons s rest ih =>
      intro i fuel hf h
      cases fuel with
      | zero => simp at hf
      | succ f =>
          rw [export_srt_from, parse_srt_blocks_ne f _ (by simp),
              parse_srt_block_render i s _ (h s (by simp))]
          simp only [Option.bind_eq_bind, Option.some_bind]
          rw [ih (i + 1) f (by simpa using hf) (fun x hx => h x (by simp [hx]))]
          simp

theorem parse_vtt_blocks_render (segs : List SubtitleSegment) :
    ∀ fuel, segs.length ≤ fuel →
      (∀ s ∈ segs, ∀ c ∈ s.text, c ≠ '\n') →
      parse_vtt_blocks fuel (export_vtt_blocks segs) =
        some (segs.map fun s => (s.startMs, s.stopMs, s.text)) := by
  induction segs with
  | nil =>
      intro fuel _ _
      show parse_vtt_blocks fuel [] = some []
      rw [parse_vtt_blocks.eq_def]
      rfl
  | cons s rest ih =>
      intro fuel hf h
      cases fuel with
      | zero => simp at hf
      | succ f =>
          rw [export_vtt_blocks, parse_vtt_blocks_ne f _ (by
                simp [format_vtt_time, format_time]),
              parse_vtt_block_render s _ (h s (by simp))]
          simp only [Option.bind_eq_bind, Option.some_bind]
          rw [ih f (by simpa using hf) (fun x hx => h x (by simp [hx]))]
          simp

theorem export_srt_from_length (segs : List SubtitleSegment) :
    ∀ i, segs.length ≤ (export_srt_from i segs).length := by
  induction segs with
  | nil => intro i; simp [export_srt_from]
  | cons s rest ih =>
      intro i
      have h1 := ih (i + 1)
      simp only [export_srt_from, List.length_append, List.length_cons,
        List.length_cons]
      omega

theorem export_vtt_blocks_length (segs : List SubtitleSegment) :
    segs.length ≤ (export_vtt_blocks segs).length := by
  induction segs with
  | nil => simp [export_vtt_blocks]
  | cons s rest ih =>
      simp only [export_vtt_blocks, List.length_append, List.length_cons]
      omega

/-- C8: for every segment list with exactly-representable times (whole
milliseconds, the precision of the renderings) and single-line text, the
SRT rendering (numbered cues, comma-delimited `HH:MM:SS,mmm` timestamps)
and the VTT rendering (`WEBVTT` header, dot-delimited `HH:MM:SS.mmm`
timestamps), when parsed back, both yield the identical ordered list of
`(start, end, text)` tuples.  Hours are not wrapped at 24: the round trip
holds for arbitrarily large times (the witness includes a cue beyond 24
hours). -/
theorem export_parse_roundtrip (segs : List SubtitleSegment)
    (h : ∀ s ∈ segs, ∀ c ∈ s.text, c ≠ '\n') :
    parse_srt (export_srt segs) =
      some (segs.map fun s => (s.startMs, s.stopMs, s.text)) ∧
    parse_vtt (export_vtt segs) =
      some (segs.map fun s => (s.startMs, s.stopMs, s.text)) := by
  constructor
  · exact parse_srt_blocks_render segs 1 (export_srt_from 1 segs).length
      (export_srt_from_length segs 1) h
  · unfold parse_vtt export_vtt
    rw [show expectChars vttHeader (vttHeader ++ export_vtt_blocks segs) =
          some (export_vtt_blocks segs) from by
        simp [vttHeader, expectChars, expectChar]]
    exact parse_vtt_blocks_render segs (export_vtt_blocks segs).length
      (export_vtt_blocks_length segs) h

/-- Witness for C8: the spec's example segments (0s–5.2s "A",
5.2s–12.8s "B") plus a cue starting at 25 hours round-trip through both
renderings to the same tuples. -/
theorem export_parse_roundtrip_witness :
    parse_srt (export_srt
        [{ startMs := 0, stopMs := 5200, text := ['A'] },
         { startMs := 5200, stopMs := 12800, text := ['B'] },
         { startMs := 90000000, stopMs := 90000500, text := ['C'] }]) =
      some [(0, 5200, ['A']), (5200, 12800, ['B']),
            (90000000, 90000500, ['C'])] ∧
    parse_vtt (export_vtt
        [{ startMs := 0, stopMs := 5200, text := ['A'] },
         { startMs := 5200, stopMs := 12800, text := ['B'] },
         { startMs := 90000000, stopMs := 90000500, text := ['C'] }]) =
      some [(0, 5200, ['A']), (5200, 12800, ['B']),
            (90000000, 90000500, ['C'])] :=
  export_parse_roundtrip
    [{ startMs := 0, stopMs := 5200, text := ['A'] },
     { startMs := 5200, stopMs := 12800, text := ['B'] },
     { startMs := 90000000, stopMs := 90000500, text := ['C'] }]
    (by decide)

end Subtitles

namespace WsServer

/-- C10: for a job id absent from the tracker's `job_progress` table (one
never registered via `start_job`, the only operation that adds keys),
`update_progress`, `complete_job` and `fail_job` are all total no-ops:
each returns with the tracker state unchanged — `job_progress` and
`active_transcriptions` untouched — and broadcasts nothing. -/
theorem unknown_job_ops_noop (s : TrackerState) (jid : ℕ)
    (h : hasJob s jid = false) (p : ℤ) (stage : Option String)
    (gu : Option ℚ) (res : Option String) (err : String) (now now2 : ℚ) :
    update_progress jid p stage gu s = (s, []) ∧
    complete_job jid res now s = (s, []) ∧
    fail_job jid err now2 s = (s, []) := by
  unfold update_progress complete_job fail_job
  simp [h]

/-- Witness for C10: in a tracker that knows only job 1, the three
operations on the unknown job 2 change nothing and broadcast nothing. -/
theorem unknown_job_ops_noop_witness :
    update_progress 2 50 (some "stage") none
        (start_job 1 "a.mp4" none 0 initTracker).1 =
      ((start_job 1 "a.mp4" none 0 initTracker).1, []) ∧
    complete_job 2 none 7 (start_job 1 "a.mp4" none 0 initTracker).1 =
      ((start_job 1 "a.mp4" none 0 initTracker).1, []) ∧
    fail_job 2 "boom" 7 (start_job 1 "a.mp4" none 0 initTracker).1 =
      ((start_job 1 "a.mp4" none 0 initTracker).1, []) :=
  unknown_job_ops_noop (start_job 1 "a.mp4" none 0 initTracker).1 2
    (by decide) 50 (some "stage") none none "boom" 7 7

end WsServer
